import Mathlib

/-!
Shallow embedding of the connection/session runtime of the
`node-red-contrib-xiaozhi-mcp-ted` repository, together with proofs of the
behavioural claims about it.

Sources embedded here:
- `src/lib/utils.js` (calculateBackoff, validateJsonSchema, createError)
- `src/lib/message-handler.js` (sendRequest / _handleResponse bookkeeping,
  _handleRequest routing) and the interfaces file bundled with it
  (MCPConfig, ToolDefinition, ToolResponse, ToolContentItem)
- `src/lib/websocket-mcp.js` (disconnect, _handleDisconnection, _startHeartbeat)
- `src/lib/reconnect-manager.js` (scheduleReconnect, _attemptReconnect, _giveUp)
- `src/unnamed/part_000` = ToolManager (executeTool, _executeToolInternal,
  _queueExecution, _processQueue, _normalizeToolResult, _validateToolArguments)

Numbers that the JavaScript source manipulates as IEEE doubles (delays,
jitter) are modelled as rationals; the delays involved are small enough that
the idealisation does not change any of the order/bound facts proved here.
-/

namespace XiaozhiMcp

/-- Single-quote character, used in error messages of the source such as
`Tool '<name>' not found` (utils.js createError call sites). -/
def sq : String := String.singleton (Char.ofNat 39)

/-! ## Backoff calculator (src/lib/utils.js, calculateBackoff) -/

/-- Embedding of `calculateBackoff(attempt, baseDelay, maxDelay)`:
`exponentialDelay = baseDelay * 2^attempt`, `jitter = Math.random() * 0.1 *
exponentialDelay`, result `Math.min(exponentialDelay + jitter, maxDelay)`.
The random draw is made explicit as the argument `rand`, which the caller
constrains to `[0, 1]` (JavaScript's `Math.random()` returns values in
`[0, 1)`). -/
def calculateBackoff (attempt : Nat) (baseDelay maxDelay : ℚ) (rand : ℚ) : ℚ :=
  let exponentialDelay := baseDelay * 2 ^ attempt
  let jitter := rand * (1 / 10) * exponentialDelay
  min (exponentialDelay + jitter) maxDelay

/-! ## Session configuration (interfaces file, MCPConfig) and heartbeat gate
(src/lib/websocket-mcp.js, _startHeartbeat) -/

/-- Embedding of `this.heartbeatInterval = options.heartbeatInterval || 30000`
in the MCPConfig constructor, restricted to numeric (or absent) inputs: the
JavaScript `||` replaces the falsy number `0` (and `undefined`) by the
default `30000`, while any non-zero number — negative included — is kept. -/
def mcpConfigHeartbeatInterval : Option Int → Int
  | none => 30000
  | some v => if v = 0 then 30000 else v

/-- Embedding of the guard at the top of `_startHeartbeat`:
`if (this.config.heartbeatInterval <= 0) return;` — the interval timer (the
only source of heartbeat pings and of the liveness-timeout disconnect) is
armed exactly when this returns `true`. -/
def startHeartbeatRuns (heartbeatInterval : Int) : Bool :=
  if heartbeatInterval ≤ 0 then false else true

/-- Whether a session built from the given configured `heartbeatInterval`
option performs any heartbeat: the configured value goes through the
MCPConfig constructor and then through the `_startHeartbeat` guard. -/
def heartbeatActive (configured : Option Int) : Bool :=
  startHeartbeatRuns (mcpConfigHeartbeatInterval configured)

/-! ## Tool response envelope (interfaces file: ToolContentItem, ToolResponse) -/

/-- Embedding of `ToolContentItem`: `{type, text}` as built by its
constructor. -/
structure ToolContentItem where
  type : String
  text : String
deriving DecidableEq, Repr

/-- Embedding of `ToolResponse`: `{content, isError}`. -/
structure ToolResponse where
  content : List ToolContentItem
  isError : Bool
deriving DecidableEq, Repr

/-- The string branch of the `ToolResponse` constructor:
`new ToolResponse(s, isError)` for a string `s` pushes the single item
`new ToolContentItem('text', s)` (whose constructor `text || ''` is the
identity on strings, the empty string included). -/
def ToolResponse.ofString (s : String) (isError : Bool) : ToolResponse :=
  { content := [{ type := "text", text := s }], isError := isError }

/-- Embedding of `ToolResponse.success(content)` for string content. -/
def ToolResponse.success (s : String) : ToolResponse :=
  ToolResponse.ofString s false

/-- Embedding of `ToolResponse.error(error)`: extracts the message and flags
the response as an error. -/
def ToolResponse.errorOfMessage (message : String) : ToolResponse :=
  ToolResponse.ofString message true

/-- Embedding of `ToolResponse.fromJson(json, isError)`; the serialised JSON
text (`JSON.stringify(json, null, 2)`) is taken as given. -/
def ToolResponse.fromJson (jsonText : String) (isError : Bool) : ToolResponse :=
  ToolResponse.ofString jsonText isError

/-! ## JavaScript values returned by tool callbacks, and result
normalisation (ToolManager._normalizeToolResult, src/unnamed/part_000) -/

/-- The shapes a tool callback's (awaited) return value can take, as
distinguished by `_normalizeToolResult`: a `ToolResponse` instance, a string,
an object with a truthy `content` property, any other object (represented by
its `JSON.stringify(result, null, 2)` text), or a primitive. -/
inductive JsResult where
  | rUndefined
  | rNull
  | rBool (b : Bool)
  | rNum (n : Int)
  | rStr (s : String)
  | rResponse (content : List ToolContentItem) (isError : Bool)
  | rContentObj (content : List ToolContentItem) (isError : Bool)
  | rPlainObj (jsonText : String)
deriving DecidableEq, Repr

/-- JavaScript truthiness of a `JsResult` value. -/
def JsResult.truthy : JsResult → Bool
  | .rUndefined => false
  | .rNull => false
  | .rBool b => b
  | .rNum n => n ≠ 0
  | .rStr s => s ≠ ""
  | .rResponse _ _ => true
  | .rContentObj _ _ => true
  | .rPlainObj _ => true

/-- JavaScript `String(v)` for the values reachable in the default branch of
`_normalizeToolResult`. -/
def JsResult.jsString : JsResult → String
  | .rUndefined => "undefined"
  | .rNull => "null"
  | .rBool b => if b then "true" else "false"
  | .rNum n => toString n
  | .rStr s => s
  | .rResponse _ _ => "[object Object]"
  | .rContentObj _ _ => "[object Object]"
  | .rPlainObj _ => "[object Object]"

/-- Embedding of `ToolManager._normalizeToolResult(result)`, branch for
branch: `ToolResponse` instances pass through; strings become a success
response; objects with a truthy `content` property become
`new ToolResponse(result.content, result.isError || false)`; other objects
become `ToolResponse.fromJson(result)`; everything else falls to
`ToolResponse.success(String(result || 'No result'))`. -/
def normalizeToolResult : JsResult → ToolResponse
  | .rResponse content isError => { content := content, isError := isError }
  | .rStr s => ToolResponse.success s
  | .rContentObj content isError => { content := content, isError := isError }
  | .rPlainObj jsonText => ToolResponse.fromJson jsonText false
  | v => ToolResponse.success (JsResult.jsString (if v.truthy then v else .rStr "No result"))

/-! ## Errors (src/lib/utils.js, createError) -/

/-- Embedding of the `Error` objects produced by `createError(message, code)`
(the `details` and `timestamp` fields are never read by the code embedded
here and are omitted). -/
structure MCPError where
  message : String
  code : String
deriving DecidableEq, Repr

/-- Embedding of `createError`. -/
def createError (message : String) (code : String) : MCPError :=
  { message := message, code := code }

/-! ## JSON values and schema validation (src/lib/utils.js,
validateJsonSchema) -/

/-- JSON values, used for tool-call arguments. -/
inductive JsonVal where
  | jNull
  | jBool (b : Bool)
  | jNum (n : Int)
  | jStr (s : String)
  | jArr (elems : List JsonVal)
  | jObj (fields : List (String × JsonVal))

/-- The `actualType` computed at the top of `validateJsonSchema`:
`Array.isArray(data) ? 'array' : typeof data` (note `typeof null` is
`"object"` in JavaScript). -/
def JsonVal.actualType : JsonVal → String
  | .jNull => "object"
  | .jBool _ => "boolean"
  | .jNum _ => "number"
  | .jStr _ => "string"
  | .jArr _ => "array"
  | .jObj _ => "object"

/-- Plain JavaScript `typeof data`, as used by the properties branch of
`validateJsonSchema` (`typeof data === 'object'`): arrays and `null` also
report `"object"`. -/
def JsonVal.jsTypeof : JsonVal → String
  | .jNull => "object"
  | .jBool _ => "boolean"
  | .jNum _ => "number"
  | .jStr _ => "string"
  | .jArr _ => "object"
  | .jObj _ => "object"

/-- JavaScript `field in data` for the data shapes validated here; only
object fields are looked up (the model returns `false` where JavaScript
would throw a TypeError on a primitive receiver — both outcomes surface as a
caught validation/execution failure in `executeTool`, which is the only
caller). -/
def JsonVal.hasField (data : JsonVal) (field : String) : Bool :=
  match data with
  | .jObj fields => fields.any (fun kv => kv.1 == field)
  | _ => false

/-- Field lookup `data[field]` on objects. -/
def JsonVal.getField (data : JsonVal) (field : String) : Option JsonVal :=
  match data with
  | .jObj fields => (fields.find? (fun kv => kv.1 == field)).map (fun kv => kv.2)
  | _ => none

/-- JSON-Schema-like schema shape read by `validateJsonSchema`: the optional
`type`, `required` and `properties` keys (a `none` marks the key as absent
from the schema object). -/
inductive JsonSchema where
  | mk (stype : Option String) (required : Option (List String))
      (properties : Option (List (String × JsonSchema)))

/-- Key of `type` in a schema. -/
def JsonSchema.stype : JsonSchema → Option String
  | .mk t _ _ => t

/-- Key of `required` in a schema. -/
def JsonSchema.required : JsonSchema → Option (List String)
  | .mk _ r _ => r

/-- Key of `properties` in a schema. -/
def JsonSchema.properties : JsonSchema → Option (List (String × JsonSchema))
  | .mk _ _ p => p

/-- Number of keys present on the schema object (`Object.keys(schema).length`
for the three keys this validator reads). -/
def JsonSchema.keyCount : JsonSchema → Nat
  | .mk t r p =>
    (if t.isSome then 1 else 0) + (if r.isSome then 1 else 0) +
      (if p.isSome then 1 else 0)

mutual

/-- Embedding of `validateJsonSchema(schema, data)`, returning the `errors`
list (the source's result is `{valid: errors.length === 0, errors}`): a type
check against `schema.type`, a presence check for each `schema.required`
field, then recursion into each declared property present on the data, with
nested error messages prefixed by `prop + "."`. -/
def validateJsonSchema : JsonSchema → JsonVal → List String
  | .mk stype required properties, data =>
    let typeErrors :=
      match stype with
      | some t =>
        if JsonVal.actualType data ≠ t then
          ["Expected type " ++ t ++ ", got " ++ JsonVal.actualType data]
        else []
      | none => []
    let requiredErrors :=
      match required with
      | some fields =>
        fields.filterMap (fun field =>
          if data.hasField field then none
          else some ("Missing required field: " ++ field))
      | none => []
    let propErrors :=
      match properties with
      | some props =>
        if JsonVal.jsTypeof data = "object" then validateProps props data else []
      | none => []
    typeErrors ++ requiredErrors ++ propErrors

/-- Per-property recursion of `validateJsonSchema` over `schema.properties`. -/
def validateProps : List (String × JsonSchema) → JsonVal → List String
  | [], _ => []
  | (prop, propSchema) :: rest, data =>
    (if data.hasField prop then
      (validateJsonSchema propSchema ((data.getField prop).getD .jNull)).map
        (fun err => prop ++ "." ++ err)
    else []) ++ validateProps rest data

end

/-- Embedding of `ToolManager._validateToolArguments(schema, args)`: skips
validation when the schema object is empty, otherwise raises
`INVALID_TOOL_ARGUMENTS` with the joined error list when validation fails. -/
def validateToolArguments (schema : JsonSchema) (args : JsonVal) :
    Except MCPError Unit :=
  if schema.keyCount = 0 then .ok ()
  else
    let errors := validateJsonSchema schema args
    if errors.isEmpty then .ok ()
    else .error (createError
      ("Invalid tool arguments: " ++ String.intercalate ", " errors)
      "INVALID_TOOL_ARGUMENTS")

/-! ## Tool definitions and the execution pipeline (interfaces file
ToolDefinition; src/unnamed/part_000 ToolManager) -/

/-- Embedding of `ToolDefinition` (the statistics fields `callCount`,
`lastCalled`, `registeredAt` are write-only bookkeeping and are omitted).
The callback abstracts the tool's JavaScript function: it either returns a
value or throws. -/
structure ToolDefinition where
  name : String
  description : String
  inputSchema : JsonSchema
  callback : JsonVal → Except MCPError JsResult
  enabled : Bool

/-- Embedding of `ToolDefinition.execute(args)`: throws when the tool is
disabled (a plain `Error`, so no `code` property — modelled with an empty
code), otherwise runs the callback. `_safeExecuteCallback` merely converts
synchronous throws and promise rejections into the same rejection channel,
which the `Except` error channel already is. -/
def ToolDefinition.execute (tool : ToolDefinition) (args : JsonVal) :
    Except MCPError JsResult :=
  if tool.enabled then tool.callback args
  else .error (createError ("Tool " ++ sq ++ tool.name ++ sq ++ " is disabled") "")

/-- Outcome of an `async` JavaScript call as seen by its caller: the promise
either rejects with an error or resolves with a `ToolResponse`. -/
inductive ExecOutcome where
  | rejected (e : MCPError)
  | resolvedResponse (r : ToolResponse)
deriving DecidableEq, Repr

/-- Whether the outcome is a rejection. -/
def ExecOutcome.isRejected : ExecOutcome → Bool
  | .rejected _ => true
  | .resolvedResponse _ => false

/-- The body of the `try` block of `ToolManager.executeTool(name, args)`
together with the inner `_executeToolInternal` pipeline: the registry lookup
(`this.tools.has(name)` then `.get`), throwing `TOOL_NOT_FOUND` when absent;
argument validation; the (safe) callback execution; and result
normalisation. The concurrency branch is not visible here because the
queued path (`_queueExecution` resolved later by `_processQueue`) is awaited
inside the same `try` and runs the same `_executeToolInternal` pipeline, so
both paths produce this value. -/
def executeToolBody (tools : List (String × ToolDefinition)) (name : String)
    (args : JsonVal) : Except MCPError ToolResponse :=
  match tools.find? (fun kv => kv.1 == name) with
  | none => .error (createError ("Tool " ++ sq ++ name ++ sq ++ " not found")
      "TOOL_NOT_FOUND")
  | some (_, tool) => do
    validateToolArguments tool.inputSchema args
    let result ← tool.execute args
    pure (normalizeToolResult result)

/-- Embedding of `ToolManager.executeTool(name, args)` as observed by its
caller: the `catch (error)` block converts every throw from the body —
registry lookup included — into `ToolResponse.error(error)`, so the
function's promise resolves in all cases. -/
def executeTool (tools : List (String × ToolDefinition)) (name : String)
    (args : JsonVal) : ExecOutcome :=
  match executeToolBody tools name args with
  | .ok r => .resolvedResponse r
  | .error e => .resolvedResponse (ToolResponse.errorOfMessage e.message)

/-! ## Inbound request routing (src/lib/message-handler.js, _handleRequest) -/

/-- Error response frame assembled by `_sendErrorResponse(id, code, message,
data)`. -/
structure JsonRpcErrorResponse where
  id : Nat
  code : Int
  message : String
  data : Option String
deriving DecidableEq, Repr

/-- A registered inbound method handler, invoked as `handler(id, params)`;
it either returns or throws synchronously. -/
def MethodHandler : Type :=
  Option Nat → JsonVal → Except MCPError Unit

/-- Embedding of `MessageHandler._handleRequest(message)`, projected onto
the error response it sends (the success responses are sent by the handlers
themselves): a missing handler with an `id` present yields `-32601`; a
handler that throws with an `id` present yields `-32603` carrying the
failure's message as `data`; a message without `id` (a notification) never
yields an error response. -/
def handleRequest (handlers : List (String × MethodHandler)) (method : String)
    (id : Option Nat) (params : JsonVal) : Option JsonRpcErrorResponse :=
  match handlers.find? (fun kv => kv.1 == method) with
  | some (_, handler) =>
    match handler id params with
    | .ok _ => none
    | .error e =>
      match id with
      | some i => some { id := i, code := -32603,
                         message := "Internal error", data := some e.message }
      | none => none
  | none =>
    match id with
    | some i => some { id := i, code := -32601,
                       message := "Method not found", data := none }
    | none => none

/-! ## Disconnect handling (src/lib/websocket-mcp.js, disconnect and
_handleDisconnection) -/

/-- The fields of the `WebSocketMCP` client that `disconnect` /
`_handleDisconnection` read and write (connection flags, the configured
auto-reconnect flag, and whether the heartbeat timer is armed). -/
structure WSClientState where
  connected : Bool
  connecting : Bool
  autoReconnect : Bool
  heartbeatOn : Bool
deriving DecidableEq, Repr

/-- Embedding of `_handleDisconnection(reason)`: clears the connection
flags, stops the heartbeat, and returns whether `_debouncedReconnect()` was
invoked — which the guard makes `wasConnected && this.config.autoReconnect
&& reason !== 'Manual disconnect'`. (The statistics updates and the
`cancelAllRequests` call do not affect this claim and are omitted.) -/
def handleDisconnection (s : WSClientState) (reason : String) :
    WSClientState × Bool :=
  let wasConnected := s.connected
  let s' := { s with connected := false, connecting := false
                     heartbeatOn := false }
  (s', wasConnected && s.autoReconnect && !(reason == "Manual disconnect"))

/-- Embedding of `disconnect()`: cancels reconnection, stops the heartbeat,
closes the socket, then runs the shared `_handleDisconnection` path with the
literal reason `'Manual disconnect'`. -/
def wsDisconnect (s : WSClientState) : WSClientState × Bool :=
  handleDisconnection { s with heartbeatOn := false } "Manual disconnect"

/-! ## Reconnection controller (src/lib/reconnect-manager.js) -/

/-- Configuration read by the reconnect manager. -/
structure ReconnectConfig where
  autoReconnect : Bool
  maxAttempts : Nat
  baseDelay : ℚ
  maxDelay : ℚ

/-- Mutable state of `ReconnectManager`. -/
structure ReconnectState where
  isReconnecting : Bool
  reconnectAttempts : Nat
  timerDelay : Option ℚ
deriving DecidableEq, Repr

/-- Events emitted (or timers armed) by the reconnect manager. -/
inductive ReconnectEvent where
  | scheduled (attempt : Nat) (delay : ℚ)
  | reconnectFailed (attempt : Nat)
  | gaveUp (totalAttempts : Nat)
deriving DecidableEq, Repr

/-- Initial reconnect-manager state. -/
def reconnectInit : ReconnectState :=
  { isReconnecting := false, reconnectAttempts := 0, timerDelay := none }

/-- Embedding of `reset()`: clears the active flag, zeroes the attempt
counter and clears any timer. -/
def reconnectReset : ReconnectState :=
  { isReconnecting := false, reconnectAttempts := 0, timerDelay := none }

/-- Embedding of `scheduleReconnect(immediate)`: no-op when auto-reconnect
is disabled or a cycle is already active; gives up (emits the terminal
`reconnect-give-up` event with `totalAttempts` and resets) when the counter
has reached `maxAttempts`; otherwise increments the counter and arms the
timer for `immediate ? 0 : calculateBackoff(reconnectAttempts - 1,
baseDelay, maxDelay)` (the jitter draw is passed in as `rand`). -/
def scheduleReconnect (cfg : ReconnectConfig) (immediate : Bool) (rand : ℚ)
    (s : ReconnectState) : ReconnectState × List ReconnectEvent :=
  if !cfg.autoReconnect then (s, [])
  else if s.isReconnecting then (s, [])
  else if cfg.maxAttempts ≤ s.reconnectAttempts then
    (reconnectReset, [.gaveUp s.reconnectAttempts])
  else
    let attempts' := s.reconnectAttempts + 1
    let d := if immediate then 0
      else calculateBackoff (attempts' - 1) cfg.baseDelay cfg.maxDelay rand
    ({ isReconnecting := true, reconnectAttempts := attempts',
       timerDelay := some d }, [.scheduled attempts' d])

/-- Embedding of the failure branch of `_attemptReconnect()`: emits
`reconnect-failed`, clears the active-cycle flag, and immediately calls
`scheduleReconnect()` again. -/
def attemptFailed (cfg : ReconnectConfig) (rand : ℚ) (s : ReconnectState) :
    ReconnectState × List ReconnectEvent :=
  let s' := { s with isReconnecting := false }
  let (s'', evs) := scheduleReconnect cfg false rand s'
  (s'', .reconnectFailed s.reconnectAttempts :: evs)

/-! ## Pending-request bookkeeping (src/lib/message-handler.js, sendRequest
and _handleResponse) -/

/-- How a pending request's promise was completed. -/
inductive ReqOutcome where
  | resolved
  | rejectedRpc
  | rejectedTimeout
  | rejectedSend
  | rejectedClosed
deriving DecidableEq, Repr

/-- State of the `pendingRequests` map, together with a log of completions
in the order they happened. An identifier is in `pendingRequests` exactly
while its entry is in the map — which is also exactly while its timeout
timer is armed, since every removal site (`_handleResponse`, the timer's own
callback, the `sendMessage` catch) clears the timer as it deletes the
entry. -/
structure MHState where
  pendingRequests : List Nat
  completionLog : List (Nat × ReqOutcome)
deriving DecidableEq, Repr

/-- Initial message-handler state. -/
def mhInit : MHState :=
  { pendingRequests := [], completionLog := [] }

/-- The events that touch the pending-request map: `sendRequest` registering
an entry, `_handleResponse` processing an inbound response frame with a
given id, the per-request timeout firing (possible only while the entry is
pending, since removal clears the timer), the `sendMessage` rejection
handler, and `cancelAllRequests()` — invoked by `_handleDisconnection` on
every connection teardown — which rejects every pending request with
`CONNECTION_CLOSED` and clears the map. (The defensive `cleanup()` sweep
has the same removal-plus-single-rejection shape per entry as `timerFire`
and is not modelled separately.) -/
inductive MHEvent where
  | register (id : Nat)
  | response (id : Nat) (isError : Bool)
  | timerFire (id : Nat)
  | sendFail (id : Nat)
  | cancelAll
deriving DecidableEq, Repr

/-- One step of the pending-request bookkeeping.
`register`: `pendingRequests.set(requestId, {...})` after arming the timer.
`response`: `_handleResponse` — an id not in the map is logged and dropped;
a matching id is deleted, its timer cleared, and the promise rejected
(`error` present) or resolved.
`timerFire`: the `setTimeout` callback — deletes the entry and rejects with
`REQUEST_TIMEOUT`; it cannot fire for a non-pending id because removal
always clears the timer first.
`sendFail`: the `.catch` on `sendMessage` — clears the timer, deletes the
entry and rejects with the transmission error; once the entry is gone the
late `reject` call is a no-op on the already-settled promise.
`cancelAll`: `cancelAllRequests()` — clears every timer, rejects every
pending request with `CONNECTION_CLOSED`, and clears the map. -/
def mhStep (s : MHState) : MHEvent → MHState
  | .register id =>
    { s with pendingRequests := s.pendingRequests ++ [id] }
  | .response id isError =>
    if id ∈ s.pendingRequests then
      { pendingRequests := s.pendingRequests.erase id,
        completionLog := s.completionLog ++
          [(id, if isError then .rejectedRpc else .resolved)] }
    else s
  | .timerFire id =>
    if id ∈ s.pendingRequests then
      { pendingRequests := s.pendingRequests.erase id,
        completionLog := s.completionLog ++ [(id, .rejectedTimeout)] }
    else s
  | .sendFail id =>
    if id ∈ s.pendingRequests then
      { pendingRequests := s.pendingRequests.erase id,
        completionLog := s.completionLog ++ [(id, .rejectedSend)] }
    else s
  | .cancelAll =>
    { pendingRequests := [],
      completionLog := s.completionLog ++
        s.pendingRequests.map (fun id => (id, .rejectedClosed)) }

/-- Run a sequence of events from a state. -/
def mhRun (s : MHState) : List MHEvent → MHState
  | [] => s
  | e :: es => mhRun (mhStep s e) es

/-- Identifiers registered by a trace, in order. -/
def regIds (es : List MHEvent) : List Nat :=
  es.filterMap (fun e =>
    match e with
    | .register id => some id
    | _ => none)

/-- Identifiers completed so far, in completion order. -/
def MHState.completedIds (s : MHState) : List Nat :=
  s.completionLog.map Prod.fst

/-! ## Concurrency-bounded tool dispatch (src/unnamed/part_000: executeTool
admission, _queueExecution, _executeToolInternal, _processQueue) -/

/-- The dispatcher state observable around `executeTool` / `_processQueue`:
the `currentExecutions` counter, the set (list) of call identifiers whose
`_executeToolInternal` is in flight, the `executionQueue`, the identifier of
the queued call currently being processed by `_processQueue` (the
`isProcessingQueue` flag is true exactly while this is `some`, from the
`shift()` to the completion of the awaited execution), a log of completed
calls tagged with whether they had been queued, and the history of calls
that were ever enqueued, in enqueue order. -/
structure ToolMgrState where
  currentExecutions : Nat
  running : List Nat
  executionQueue : List Nat
  procCall : Option Nat
  completedLog : List (Nat × Bool)
  enqueueLog : List Nat
deriving DecidableEq, Repr

/-- Initial dispatcher state. -/
def toolInit : ToolMgrState :=
  { currentExecutions := 0, running := [], executionQueue := [],
    procCall := none, completedLog := [], enqueueLog := [] }

/-- One pass of `_processQueue`: returns unchanged when a queued execution
is already being processed (`isProcessingQueue`), when the queue is empty,
or when `currentExecutions >= maxConcurrentExecutions`; otherwise `shift()`s
the head of the queue and starts it through `_executeToolInternal`, which
increments the running count as its first statement. -/
def drainOne (maxConc : Nat) (s : ToolMgrState) : ToolMgrState :=
  match s.procCall, s.executionQueue with
  | none, h :: t =>
    if s.currentExecutions < maxConc then
      { s with executionQueue := t, procCall := some h,
               currentExecutions := s.currentExecutions + 1,
               running := s.running ++ [h] }
    else s
  | _, _ => s

/-- Events driving the dispatcher: a call arriving at `executeTool`, an
in-flight execution completing (its `_executeToolInternal` `finally` block:
decrement the counter, then call `_processQueue`), and a deferred
`setImmediate(() => this._processQueue())` tick firing. -/
inductive ToolEvent where
  | arrive (id : Nat)
  | finish (id : Nat)
  | drainTick
deriving DecidableEq, Repr

/-- One step of the dispatcher. An arriving call is appended to
`executionQueue` when `currentExecutions >= maxConcurrentExecutions`
(`_queueExecution`), and otherwise starts immediately (the admission check
and the counter increment run back-to-back with no interleaving point, as
in the single-threaded source). A completing call decrements the counter,
is logged (tagged as queued exactly when it was the call `_processQueue` was
processing, which also resets `isProcessingQueue` by letting the outer
`_processQueue` finish), and then the `finally` chain attempts one queue
drain. A finish event for an unknown id is ignored. -/
def toolStep (maxConc : Nat) (s : ToolMgrState) : ToolEvent → ToolMgrState
  | .arrive id =>
    if maxConc ≤ s.currentExecutions then
      { s with executionQueue := s.executionQueue ++ [id],
               enqueueLog := s.enqueueLog ++ [id] }
    else
      { s with currentExecutions := s.currentExecutions + 1,
               running := s.running ++ [id] }
  | .finish id =>
    if id ∈ s.running then
      let wasQueued : Bool := s.procCall == some id
      drainOne maxConc
        { s with running := s.running.erase id
                 currentExecutions := s.currentExecutions - 1
                 completedLog := s.completedLog ++ [(id, wasQueued)]
                 procCall := if s.procCall == some id then none else s.procCall }
    else s
  | .drainTick => drainOne maxConc s

/-- Run a sequence of dispatcher events from a state. -/
def toolRun (maxConc : Nat) (s : ToolMgrState) : List ToolEvent → ToolMgrState
  | [] => s
  | e :: es => toolRun maxConc (toolStep maxConc s e) es

/-- Queued calls that have completed, in completion order. -/
def ToolMgrState.completedQueued (s : ToolMgrState) : List Nat :=
  (s.completedLog.filter (fun c => c.2)).map Prod.fst

/-- The queued calls currently accounted for outside the completion log:
the one being processed (if any) followed by the waiting queue. -/
def ToolMgrState.outstandingQueued (s : ToolMgrState) : List Nat :=
  s.procCall.toList ++ s.executionQueue

/-! # Theorems -/

/-- C10: result normalisation treats all falsy non-string callback return
values alike — the number `0` and the boolean `false` yield a success
(`isError = false`) `ToolResponse` whose single text content item is the
literal text "No result", exactly as for `undefined` and `null`, whereas the
empty string yields a text content item containing the empty string. -/
theorem claim_c10_falsy_normalization :
    normalizeToolResult (.rNum 0) = ToolResponse.success "No result" ∧
    normalizeToolResult (.rBool false) = ToolResponse.success "No result" ∧
    normalizeToolResult .rUndefined = ToolResponse.success "No result" ∧
    normalizeToolResult .rNull = ToolResponse.success "No result" ∧
    (normalizeToolResult (.rNum 0)).isError = false ∧
    normalizeToolResult (.rStr "") =
      { content := [{ type := "text", text := "" }], isError := false } := by
  refine ⟨rfl, rfl, rfl, rfl, rfl, rfl⟩

/-- C5: for attempt numbers `a < a'`, base delay `b > 0` and any jitter
draws in `[0, 1]`, `calculateBackoff` is monotonically non-decreasing in the
attempt number and never exceeds the configured maximum. -/
theorem claim_c5_backoff_monotone (a a' : Nat) (b m r r' : ℚ)
    (hb : 0 < b) (hr0 : 0 ≤ r) (hr1 : r ≤ 1) (hr0' : 0 ≤ r') (hr1' : r' ≤ 1)
    (haa : a < a') :
    calculateBackoff a b m r ≤ calculateBackoff a' b m r' ∧
      calculateBackoff a b m r ≤ m := by
  constructor
  · unfold calculateBackoff
    refine min_le_min ?_ le_rfl
    have h2a : (0:ℚ) < 2 ^ a := by positivity
    have h2a' : (0:ℚ) < 2 ^ a' := by positivity
    have hpow : (2:ℚ) ^ a * 2 ≤ 2 ^ a' := by
      have h1 : (2:ℚ) ^ (a + 1) ≤ 2 ^ a' :=
        pow_le_pow_right₀ (by norm_num) haa
      calc (2:ℚ) ^ a * 2 = 2 ^ (a + 1) := by rw [pow_succ]
        _ ≤ 2 ^ a' := h1
    nlinarith [mul_pos hb h2a, mul_pos hb h2a',
      mul_le_of_le_one_left (le_of_lt (mul_pos hb h2a)) hr1,
      mul_nonneg (mul_nonneg hr0' (by norm_num : (0:ℚ) ≤ 1 / 10))
        (le_of_lt (mul_pos hb h2a'))]
  · exact min_le_right _ _

/-- Witness for C5 at concrete inputs. -/
theorem claim_c5_witness :
    calculateBackoff 0 5 100 0 ≤ calculateBackoff 1 5 100 1 ∧
      calculateBackoff 0 5 100 0 ≤ 100 :=
  claim_c5_backoff_monotone 0 1 5 100 0 1 (by decide) (by decide) (by decide)
    (by decide) (by decide) (by decide)

/-- C6 counterexample: the claim says every non-positive configured
heartbeat interval disables the heartbeat, but a configured interval of `0`
is falsy, so the MCPConfig constructor (`options.heartbeatInterval ||
30000`) replaces it with the default `30000` and `_startHeartbeat` arms the
timer: with configured interval `0` the heartbeat runs. -/
theorem claim_c6_counterexample :
    heartbeatActive (some 0) = true ∧
      mcpConfigHeartbeatInterval (some 0) = 30000 := by
  refine ⟨rfl, rfl⟩

/-- C6 amended: a configured negative heartbeat interval survives the
config defaulting and makes `_startHeartbeat` return without arming the
timer (no pings, no liveness disconnect); a configured interval of `0` is
replaced by the default `30000`, so the heartbeat runs; any positive
interval also runs. -/
theorem claim_c6_heartbeat_gate :
    (∀ v : Int, v < 0 → heartbeatActive (some v) = false) ∧
    heartbeatActive (some 0) = true ∧
    mcpConfigHeartbeatInterval (some 0) = 30000 ∧
    (∀ v : Int, 0 < v → heartbeatActive (some v) = true) := by
  refine ⟨?_, rfl, rfl, ?_⟩
  · intro v hv
    have hne : ¬(v = 0) := by omega
    have hle : v ≤ 0 := by omega
    simp [heartbeatActive, mcpConfigHeartbeatInterval, startHeartbeatRuns,
      hne, hle]
  · intro v hv
    have hne : ¬(v = 0) := by omega
    have hle : ¬(v ≤ 0) := by omega
    simp [heartbeatActive, mcpConfigHeartbeatInterval, startHeartbeatRuns,
      hne, hle]

/-- Witness for C6 at concrete inputs. -/
theorem claim_c6_witness :
    heartbeatActive (some (-7)) = false ∧ heartbeatActive (some 5) = true :=
  ⟨claim_c6_heartbeat_gate.1 (-7) (by decide),
   claim_c6_heartbeat_gate.2.2.2 5 (by decide)⟩

/-- C4 counterexample: the claim says an unexpected transport closure with
`autoReconnect` enabled always schedules a reconnection, but
`_handleDisconnection` also requires `wasConnected` (`this.connected` at
entry). A close event that arrives while the session is not in the
connected state — for example the transport close fired during a failed
`connect()`, or the socket's own close event after a manual disconnect has
already run the shared path — schedules nothing even though the reason is
not the manual-disconnect marker and auto-reconnect is on. -/
theorem claim_c4_counterexample :
    (handleDisconnection
      { connected := false, connecting := true, autoReconnect := true,
        heartbeatOn := false
        : WSClientState } "transport error").2 = false := by
  rfl

/-- C4 amended: a manual `disconnect()` never schedules a reconnection, and
an unexpected transport closure (reason other than the manual-disconnect
marker) while `autoReconnect` is enabled schedules one provided the session
was connected when the closure was handled; without `wasConnected` nothing
is scheduled. -/
theorem claim_c4_disconnect_reconnect :
    (∀ s : WSClientState, (wsDisconnect s).2 = false) ∧
    (∀ (s : WSClientState) (reason : String), s.connected = true →
      s.autoReconnect = true → reason ≠ "Manual disconnect" →
      (handleDisconnection s reason).2 = true) ∧
    (∀ (s : WSClientState) (reason : String),
      (handleDisconnection s reason).2 = true →
      s.connected = true ∧ s.autoReconnect = true ∧
        reason ≠ "Manual disconnect") := by
  refine ⟨?_, ?_, ?_⟩
  · intro s
    simp [wsDisconnect, handleDisconnection]
  · intro s reason h1 h2 h3
    simp [handleDisconnection, h1, h2, h3]
  · intro s reason h
    simp only [handleDisconnection, Bool.and_eq_true, Bool.not_eq_true',
      beq_eq_false_iff_ne] at h
    exact ⟨h.1.1, h.1.2, h.2⟩

/-- Witness for C4 at concrete inputs. -/
theorem claim_c4_witness :
    (wsDisconnect (⟨true, false, true, true⟩ : WSClientState)).2 = false ∧
    (handleDisconnection (⟨true, false, true, true⟩ : WSClientState)
      "going away").2 = true :=
  ⟨claim_c4_disconnect_reconnect.1 _,
   claim_c4_disconnect_reconnect.2.1 _ "going away" rfl rfl (by decide)⟩

/-- C1 counterexample: the claim says `executeTool` rejects with
`ToolNotFound` for an unregistered name, but the `TOOL_NOT_FOUND` throw sits
inside the `try` block of `executeTool`, whose `catch` converts it to
`ToolResponse.error(error)`: the call resolves with an error-flagged
response and is not a rejection. -/
theorem claim_c1_counterexample :
    executeTool [] "echo" (.jObj []) =
      .resolvedResponse (ToolResponse.errorOfMessage
        ("Tool " ++ sq ++ "echo" ++ sq ++ " not found")) ∧
    (executeTool [] "echo" (.jObj [])).isRejected = false := by
  refine ⟨rfl, rfl⟩

/-- C1 amended: `executeTool` never rejects at all — every failure,
the registry-level `ToolNotFound` included, is caught and returned as an
error-flagged `ToolResponse` carrying the failure's message; an unregistered
name yields the error-flagged response with the `Tool '<name>' not found`
message. -/
theorem claim_c1_no_rejection :
    (∀ (tools : List (String × ToolDefinition)) (name : String)
      (args : JsonVal), (executeTool tools name args).isRejected = false) ∧
    (∀ (tools : List (String × ToolDefinition)) (name : String)
      (args : JsonVal), tools.find? (fun kv => kv.1 == name) = none →
      executeTool tools name args = .resolvedResponse
        (ToolResponse.errorOfMessage
          ("Tool " ++ sq ++ name ++ sq ++ " not found"))) ∧
    (∀ (tools : List (String × ToolDefinition)) (name : String)
      (args : JsonVal) (e : MCPError), executeToolBody tools name args = .error e →
      executeTool tools name args =
        .resolvedResponse (ToolResponse.errorOfMessage e.message)) := by
  refine ⟨?_, ?_, ?_⟩
  · intro tools name args
    unfold executeTool
    cases executeToolBody tools name args <;> rfl
  · intro tools name args h
    simp [executeTool, executeToolBody, h, createError]
  · intro tools name args e h
    simp [executeTool, h]

/-- Witness for C1 at concrete inputs. -/
theorem claim_c1_witness :
    (executeTool [] "nope" (.jObj [])).isRejected = false ∧
    executeTool [] "nope" (.jObj []) = .resolvedResponse
      (ToolResponse.errorOfMessage
        ("Tool " ++ sq ++ "nope" ++ sq ++ " not found")) :=
  ⟨claim_c1_no_rejection.1 [] "nope" (.jObj []),
   claim_c1_no_rejection.2.1 [] "nope" (.jObj []) rfl⟩

/-- C9: inbound request routing — an unknown method with an `id` present is
answered with error code `-32601`; a registered handler that throws is
answered, when an `id` is present, with `-32603` carrying the failure's
message as `data`; a message without an `id` (a notification) never receives
an error reply from the router. -/
theorem claim_c9_request_routing :
    (∀ (handlers : List (String × MethodHandler)) (method : String)
      (i : Nat) (params : JsonVal),
      handlers.find? (fun kv => kv.1 == method) = none →
      handleRequest handlers method (some i) params =
        some { id := i, code := -32601, message := "Method not found",
               data := none }) ∧
    (∀ (handlers : List (String × MethodHandler)) (method : String)
      (i : Nat) (params : JsonVal) (kv : String × MethodHandler) (e : MCPError),
      handlers.find? (fun kv => kv.1 == method) = some kv →
      kv.2 (some i) params = .error e →
      handleRequest handlers method (some i) params =
        some { id := i, code := -32603, message := "Internal error",
               data := some e.message }) ∧
    (∀ (handlers : List (String × MethodHandler)) (method : String)
      (params : JsonVal),
      handleRequest handlers method none params = none) := by
  refine ⟨?_, ?_, ?_⟩
  · intro hs m i p h
    simp [handleRequest, h]
  · intro hs m i p kv e hfind herr
    obtain ⟨k, f⟩ := kv
    have herr' : f (some i) p = Except.error e := herr
    simp [handleRequest, hfind, herr']
  · intro hs m p
    unfold handleRequest
    cases hf : hs.find? (fun kv => kv.1 == m) with
    | none => simp
    | some kv =>
      obtain ⟨k, f⟩ := kv
      cases hr : f none p <;> simp [hr]

/-- Witness for C9 at concrete inputs. -/
theorem claim_c9_witness :
    handleRequest [] "tools/rename" (some 7) (.jObj []) =
      some { id := 7, code := -32601, message := "Method not found",
             data := none } ∧
    handleRequest
        [("boom", fun _ _ => Except.error (createError "kaput" "E"))]
        "boom" (some 8) (.jObj []) =
      some { id := 8, code := -32603, message := "Internal error",
             data := some "kaput" } ∧
    handleRequest [] "tools/rename" none (.jObj []) = none :=
  ⟨claim_c9_request_routing.1 [] "tools/rename" 7 (.jObj []) rfl,
   claim_c9_request_routing.2.1
     [("boom", fun _ _ => Except.error (createError "kaput" "E"))]
     "boom" 8 (.jObj [])
     ("boom", fun _ _ => Except.error (createError "kaput" "E"))
     (createError "kaput" "E") rfl rfl,
   claim_c9_request_routing.2.2 [] "tools/rename" (.jObj [])⟩

/-- C7: with the counter at the maximum, `scheduleReconnect` emits the
terminal give-up event and resets the counter to zero instead of arming a
timer; below the maximum it increments the counter and arms a timer for
`immediate ? 0 : backoff(counter - 1, base, max)`. In the concrete scenario
with `maxReconnectAttempts = 3`, three consecutive failed attempts followed
by the fourth scheduling call (the one the third failure handler makes)
produce the give-up event with `totalAttempts = 3` and reset the counter to
zero. -/
theorem claim_c7_reconnect_giveup :
    (∀ (cfg : ReconnectConfig) (s : ReconnectState) (imm : Bool) (r : ℚ),
      cfg.autoReconnect = true → s.isReconnecting = false →
      cfg.maxAttempts ≤ s.reconnectAttempts →
      scheduleReconnect cfg imm r s =
        (reconnectReset, [.gaveUp s.reconnectAttempts])) ∧
    (∀ (cfg : ReconnectConfig) (s : ReconnectState) (imm : Bool) (r : ℚ),
      cfg.autoReconnect = true → s.isReconnecting = false →
      s.reconnectAttempts < cfg.maxAttempts →
      (scheduleReconnect cfg imm r s).1.reconnectAttempts =
        s.reconnectAttempts + 1 ∧
      (scheduleReconnect cfg imm r s).1.isReconnecting = true ∧
      (scheduleReconnect cfg imm r s).1.timerDelay = some (if imm then 0
        else calculateBackoff s.reconnectAttempts cfg.baseDelay
          cfg.maxDelay r)) ∧
    (attemptFailed ⟨true, 3, 5, 60⟩ 0
      (attemptFailed ⟨true, 3, 5, 60⟩ 0
        (attemptFailed ⟨true, 3, 5, 60⟩ 0
          (scheduleReconnect ⟨true, 3, 5, 60⟩ false 0 reconnectInit).1).1).1) =
      (reconnectReset, [.reconnectFailed 3, .gaveUp 3]) := by
  refine ⟨?_, ?_, ?_⟩
  · intro cfg s imm r h1 h2 h3
    simp [scheduleReconnect, h1, h2, h3]
  · intro cfg s imm r h1 h2 h3
    have h3' : ¬(cfg.maxAttempts ≤ s.reconnectAttempts) := by omega
    simp [scheduleReconnect, h1, h2, h3']
  · decide

/-- Witness for C7 at concrete inputs. -/
theorem claim_c7_witness :
    scheduleReconnect ⟨true, 3, 5, 60⟩ false 0
        (⟨false, 3, none⟩ : ReconnectState) =
      (reconnectReset, [.gaveUp 3]) ∧
    (scheduleReconnect ⟨true, 3, 5, 60⟩ false 0 reconnectInit).1.reconnectAttempts = 1 :=
  ⟨claim_c7_reconnect_giveup.1 ⟨true, 3, 5, 60⟩ ⟨false, 3, none⟩ false 0
     rfl rfl (by decide),
   by
    have h := (claim_c7_reconnect_giveup.2.1 ⟨true, 3, 5, 60⟩ reconnectInit
      false 0 rfl rfl (by decide)).1
    simpa [reconnectInit] using h⟩

theorem regIds_cons (e : MHEvent) (es : List MHEvent) :
    regIds (e :: es) = regIds [e] ++ regIds es := by
  cases e <;> simp [regIds]

theorem mhComplete_perm (s : MHState) (id : Nat) (o : ReqOutcome)
    (h : id ∈ s.pendingRequests) :
    ((s.completionLog ++ [(id, o)]).map Prod.fst ++
        s.pendingRequests.erase id).Perm
      (s.completionLog.map Prod.fst ++ s.pendingRequests) := by
  have hperm : (id :: s.pendingRequests.erase id).Perm s.pendingRequests :=
    (List.perm_cons_erase h).symm
  simp only [List.map_append, List.map_cons, List.map_nil,
    List.append_assoc, List.singleton_append]
  exact List.Perm.append_left _ hperm

theorem mhStep_combined_perm (s : MHState) (e : MHEvent) :
    ((mhStep s e).completedIds ++ (mhStep s e).pendingRequests).Perm
      ((s.completedIds ++ s.pendingRequests) ++ regIds [e]) := by
  cases e with
  | register id =>
    simp [mhStep, MHState.completedIds, regIds, List.append_assoc]
  | response id isError =>
    by_cases h : id ∈ s.pendingRequests
    · simp only [mhStep, if_pos h, MHState.completedIds, regIds,
        List.filterMap_cons, List.filterMap_nil, List.append_nil]
      exact mhComplete_perm s id _ h
    · simp [mhStep, h, regIds]
  | timerFire id =>
    by_cases h : id ∈ s.pendingRequests
    · simp only [mhStep, if_pos h, MHState.completedIds, regIds,
        List.filterMap_cons, List.filterMap_nil, List.append_nil]
      exact mhComplete_perm s id _ h
    · simp [mhStep, h, regIds]
  | sendFail id =>
    by_cases h : id ∈ s.pendingRequests
    · simp only [mhStep, if_pos h, MHState.completedIds, regIds,
        List.filterMap_cons, List.filterMap_nil, List.append_nil]
      exact mhComplete_perm s id _ h
    · simp [mhStep, h, regIds]
  | cancelAll =>
    simp [mhStep, MHState.completedIds, regIds, List.map_map,
      Function.comp_def]

theorem mhRun_combined_perm : ∀ (es : List MHEvent) (s : MHState),
    ((mhRun s es).completedIds ++ (mhRun s es).pendingRequests).Perm
      ((s.completedIds ++ s.pendingRequests) ++ regIds es)
  | [], s => by simp [mhRun, regIds]
  | e :: es, s => by
    have h1 := mhRun_combined_perm es (mhStep s e)
    have h2 := (mhStep_combined_perm s e).append_right (regIds es)
    have h4 := h1.trans h2
    rw [regIds_cons]
    simpa [mhRun, List.append_assoc] using h4

/-- C2 counterexample: the claim enumerates the completion causes of a
pending request as exactly a matching response, the request's own timeout,
or a transmission failure — but `cancelAllRequests()` (run by
`_handleDisconnection` on every connection teardown) is a fourth cause: in
the trace below, request `1` is completed with `CONNECTION_CLOSED` although
no response, timeout or transmission-failure event ever occurred for it. -/
theorem claim_c2_counterexample :
    (mhRun mhInit [MHEvent.register 1,
      MHEvent.cancelAll]).completionLog = [(1, ReqOutcome.rejectedClosed)] ∧
    ReqOutcome.rejectedClosed ≠ ReqOutcome.resolved ∧
    ReqOutcome.rejectedClosed ≠ ReqOutcome.rejectedRpc ∧
    ReqOutcome.rejectedClosed ≠ ReqOutcome.rejectedTimeout ∧
    ReqOutcome.rejectedClosed ≠ ReqOutcome.rejectedSend := by
  refine ⟨rfl, by decide, by decide, by decide, by decide⟩

/-- C2 amended: pending-request bookkeeping, with connection teardown
(`cancelAllRequests`, invoked on disconnect) admitted as a completion cause
alongside the matching response, the request's own timeout and the
transmission failure. (1) Over any event trace whose registered
identifiers are distinct (the source generates fresh ids and the spec
forbids reuse while pending), every request is completed at most once: the
completion log has no duplicate identifier. (2) A response whose id
matches no pending request is dropped without any state change or error.
(3) A response with identifier `id` never removes a pending request with a
different identifier, (4) nor does it ever add a completion for a different
identifier. (5) The timeout firing removes exactly its own pending entry
and completes it as a `REQUEST_TIMEOUT` rejection, after which a late
response with that id is dropped. (6) A transmission failure removes the
entry immediately and completes it with the transmission error. -/
theorem claim_c2_pending_requests :
    (∀ es : List MHEvent, (regIds es).Nodup →
      ((mhRun mhInit es).completedIds).Nodup) ∧
    (∀ (s : MHState) (id : Nat) (isError : Bool),
      id ∉ s.pendingRequests → mhStep s (.response id isError) = s) ∧
    (∀ (s : MHState) (id j : Nat) (isError : Bool), j ≠ id →
      j ∈ s.pendingRequests →
      j ∈ (mhStep s (.response id isError)).pendingRequests) ∧
    (∀ (s : MHState) (id : Nat) (isError : Bool) (c : Nat × ReqOutcome),
      c ∈ (mhStep s (.response id isError)).completionLog →
      c ∈ s.completionLog ∨ c.1 = id) ∧
    (∀ (s : MHState) (id : Nat), id ∈ s.pendingRequests →
      (mhStep s (.timerFire id)).pendingRequests =
        s.pendingRequests.erase id ∧
      (mhStep s (.timerFire id)).completionLog =
        s.completionLog ++ [(id, .rejectedTimeout)] ∧
      (s.pendingRequests.Nodup → ∀ isError : Bool,
        mhStep (mhStep s (.timerFire id)) (.response id isError) =
          mhStep s (.timerFire id))) ∧
    (∀ (s : MHState) (id : Nat), id ∈ s.pendingRequests →
      (mhStep s (.sendFail id)).pendingRequests =
        s.pendingRequests.erase id ∧
      (mhStep s (.sendFail id)).completionLog =
        s.completionLog ++ [(id, .rejectedSend)]) := by
  refine ⟨?_, ?_, ?_, ?_, ?_, ?_⟩
  · intro es h
    have hp := mhRun_combined_perm es mhInit
    simp only [mhInit, MHState.completedIds, List.map_nil,
      List.nil_append, List.append_nil] at hp
    exact ((hp.nodup_iff).mpr h).of_append_left
  · intro s id isError h
    simp [mhStep, h]
  · intro s id j isError hne hj
    by_cases h : id ∈ s.pendingRequests
    · simp only [mhStep, if_pos h]
      exact (List.mem_erase_of_ne hne).mpr hj
    · simpa [mhStep, h] using hj
  · intro s id isError c hc
    by_cases h : id ∈ s.pendingRequests
    · simp only [mhStep, if_pos h, List.mem_append, List.mem_singleton] at hc
      rcases hc with hc | hc
      · exact Or.inl hc
      · exact Or.inr (by rw [hc])
    · simp only [mhStep, if_neg h] at hc
      exact Or.inl hc
  · intro s id h
    refine ⟨by simp [mhStep, h], by simp [mhStep, h], ?_⟩
    intro hnd isError
    set s' := mhStep s (.timerFire id) with hs'
    have hout : id ∉ s'.pendingRequests := by
      rw [hs']
      simp only [mhStep, if_pos h]
      intro hmem
      exact ((hnd.mem_erase_iff).mp hmem).1 rfl
    simp [mhStep, hout]
  · intro s id h
    exact ⟨by simp [mhStep, h], by simp [mhStep, h]⟩

/-- Witness for C2 at concrete inputs. -/
theorem claim_c2_witness :
    ((mhRun mhInit [MHEvent.register 1, MHEvent.register 2,
      MHEvent.response 1 false, MHEvent.timerFire 2,
      MHEvent.response 2 true]).completedIds).Nodup ∧
    mhStep ⟨[3], []⟩ (.response 4 false) = ⟨[3], []⟩ ∧
    (3 : Nat) ∈ (mhStep ⟨[3, 4], []⟩ (.response 4 false)).pendingRequests ∧
    (mhStep ⟨[5], []⟩ (.timerFire 5)).completionLog =
      [(5, .rejectedTimeout)] ∧
    (mhStep ⟨[6], []⟩ (.sendFail 6)).completionLog = [(6, .rejectedSend)] :=
  ⟨claim_c2_pending_requests.1 _ (by decide),
   claim_c2_pending_requests.2.1 ⟨[3], []⟩ 4 false (by decide),
   claim_c2_pending_requests.2.2.1 ⟨[3, 4], []⟩ 4 3 false (by decide)
     (by decide),
   (claim_c2_pending_requests.2.2.2.2.1 ⟨[5], []⟩ 5 (by decide)).2.1,
   (claim_c2_pending_requests.2.2.2.2.2 ⟨[6], []⟩ 6 (by decide)).2⟩

theorem drainOne_current_le (maxConc : Nat) (s : ToolMgrState)
    (h : s.currentExecutions ≤ maxConc) :
    (drainOne maxConc s).currentExecutions ≤ maxConc := by
  rcases hp : s.procCall with _ | p
  · rcases hq : s.executionQueue with _ | ⟨x, t⟩
    · simpa [drainOne, hp, hq] using h
    · simp only [drainOne, hp, hq]
      split
      case isTrue hlt => simpa using hlt
      case isFalse => simpa using h
  · simpa [drainOne, hp] using h

theorem toolStep_current_le (maxConc : Nat) (s : ToolMgrState)
    (e : ToolEvent) (h : s.currentExecutions ≤ maxConc) :
    (toolStep maxConc s e).currentExecutions ≤ maxConc := by
  cases e with
  | arrive id =>
    simp only [toolStep]
    split
    case isTrue => simpa using h
    case isFalse hlt => simp only [Nat.not_le] at hlt; simpa using hlt
  | finish id =>
    simp only [toolStep]
    split
    case isTrue =>
      apply drainOne_current_le
      simp only []
      omega
    case isFalse => exact h
  | drainTick => exact drainOne_current_le _ _ h

theorem toolRun_current_le (maxConc : Nat) :
    ∀ (es : List ToolEvent) (s : ToolMgrState),
      s.currentExecutions ≤ maxConc →
      (toolRun maxConc s es).currentExecutions ≤ maxConc
  | [], _, h => h
  | e :: es, s, h =>
    toolRun_current_le maxConc es (toolStep maxConc s e)
      (toolStep_current_le maxConc s e h)

theorem drainOne_queued_fields (maxConc : Nat) (s : ToolMgrState) :
    (drainOne maxConc s).completedQueued = s.completedQueued ∧
    (drainOne maxConc s).outstandingQueued = s.outstandingQueued ∧
    (drainOne maxConc s).enqueueLog = s.enqueueLog := by
  rcases hp : s.procCall with _ | p
  · rcases hq : s.executionQueue with _ | ⟨x, t⟩
    · simp [drainOne, hp, hq]
    · simp only [drainOne, hp, hq]
      split
      case isTrue =>
        simp [ToolMgrState.completedQueued, ToolMgrState.outstandingQueued,
          hp, hq]
      case isFalse => simp
  · simp [drainOne, hp]

theorem toolStep_queued_inv (maxConc : Nat) (s : ToolMgrState) (e : ToolEvent)
    (h : s.completedQueued ++ s.outstandingQueued = s.enqueueLog) :
    (toolStep maxConc s e).completedQueued ++
        (toolStep maxConc s e).outstandingQueued =
      (toolStep maxConc s e).enqueueLog := by
  cases e with
  | arrive id =>
    simp only [toolStep]
    split
    case isTrue =>
      simp only [ToolMgrState.completedQueued,
        ToolMgrState.outstandingQueued] at h ⊢
      simp only [← List.append_assoc] at h ⊢
      rw [h]
    case isFalse =>
      simpa [ToolMgrState.completedQueued, ToolMgrState.outstandingQueued]
        using h
  | finish id =>
    simp only [toolStep]
    split
    case isTrue =>
      obtain ⟨d1, d2, d3⟩ := drainOne_queued_fields maxConc
        { s with running := s.running.erase id
                 currentExecutions := s.currentExecutions - 1
                 completedLog := s.completedLog ++ [(id, s.procCall == some id)]
                 procCall := if s.procCall == some id then none
                   else s.procCall }
      rw [d1, d2, d3]
      by_cases hp : s.procCall = some id
      · simp only [ToolMgrState.completedQueued,
          ToolMgrState.outstandingQueued, hp] at h ⊢
        simp only [beq_self_eq_true, if_true, List.filter_append,
          List.map_append, Option.toList_some] at h ⊢
        simp only [← List.append_assoc] at h ⊢
        simpa using h
      · have hp' : (s.procCall == some id) = false := beq_eq_false_iff_ne.mpr hp
        simp only [ToolMgrState.completedQueued,
          ToolMgrState.outstandingQueued, hp', if_false,
          List.filter_append, List.map_append] at h ⊢
        simpa using h
    case isFalse => exact h
  | drainTick =>
    simp only [toolStep]
    obtain ⟨d1, d2, d3⟩ := drainOne_queued_fields maxConc s
    rw [d1, d2, d3]
    exact h

theorem toolRun_queued_inv (maxConc : Nat) :
    ∀ (es : List ToolEvent) (s : ToolMgrState),
      s.completedQueued ++ s.outstandingQueued = s.enqueueLog →
      (toolRun maxConc s es).completedQueued ++
          (toolRun maxConc s es).outstandingQueued =
        (toolRun maxConc s es).enqueueLog
  | [], _, h => h
  | e :: es, s, h =>
    toolRun_queued_inv maxConc es (toolStep maxConc s e)
      (toolStep_queued_inv maxConc s e h)

/-- C3: the number of in-flight tool executions never exceeds the
configured maximum over any event trace from the initial dispatcher state;
a call arriving while the count is at or above the ceiling is appended to
the queue (with counter and running set untouched); and a `_processQueue`
pass drains nothing while the running count is at or above the ceiling. -/
theorem claim_c3_concurrency_bound :
    (∀ (maxConc : Nat) (es : List ToolEvent),
      (toolRun maxConc toolInit es).currentExecutions ≤ maxConc) ∧
    (∀ (maxConc : Nat) (s : ToolMgrState) (id : Nat),
      maxConc ≤ s.currentExecutions →
      toolStep maxConc s (.arrive id) =
        { s with executionQueue := s.executionQueue ++ [id]
                 enqueueLog := s.enqueueLog ++ [id] }) ∧
    (∀ (maxConc : Nat) (s : ToolMgrState),
      maxConc ≤ s.currentExecutions → drainOne maxConc s = s) := by
  refine ⟨?_, ?_, ?_⟩
  · intro maxConc es
    exact toolRun_current_le maxConc es toolInit (Nat.zero_le _)
  · intro maxConc s id h
    simp [toolStep, h]
  · intro maxConc s h
    rcases hp : s.procCall with _ | p
    · rcases hq : s.executionQueue with _ | ⟨x, t⟩
      · simp [drainOne, hp, hq]
      · simp only [drainOne, hp, hq]
        rw [if_neg (Nat.not_lt.mpr h)]
    · simp [drainOne, hp]

/-- Witness for C3 at concrete inputs. -/
theorem claim_c3_witness :
    toolStep 1 (⟨2, [10, 11], [], none, [], []⟩ : ToolMgrState)
        (.arrive 12) = ⟨2, [10, 11], [12], none, [], [12]⟩ ∧
    drainOne 1 (⟨2, [10, 11], [5], none, [], [5]⟩ : ToolMgrState) =
      ⟨2, [10, 11], [5], none, [], [5]⟩ ∧
    (toolRun 1 toolInit [.arrive 1, .arrive 2, .finish 1]).currentExecutions
      ≤ 1 :=
  ⟨claim_c3_concurrency_bound.2.1 1 ⟨2, [10, 11], [], none, [], []⟩ 12
     (by decide),
   claim_c3_concurrency_bound.2.2 1 ⟨2, [10, 11], [5], none, [], [5]⟩
     (by decide),
   claim_c3_concurrency_bound.1 1 [.arrive 1, .arrive 2, .finish 1]⟩

/-- C8: queued tool calls complete in FIFO order relative to each other.
Over any event trace from the initial dispatcher state, the identifiers of
completed queued calls, in completion order, followed by the queued call
currently being processed (if any) and the still-waiting queue, equal the
enqueue history in enqueue order. In particular the completed queued calls
form a prefix of the enqueue order: of any two queued calls, the one
enqueued earlier completes earlier. Nothing is claimed about calls that
never queued (their completions are recorded in `completedLog` but excluded
from `completedQueued`). -/
theorem claim_c8_queued_fifo :
    ∀ (maxConc : Nat) (es : List ToolEvent),
      (toolRun maxConc toolInit es).completedQueued ++
          (toolRun maxConc toolInit es).outstandingQueued =
        (toolRun maxConc toolInit es).enqueueLog := by
  intro maxConc es
  exact toolRun_queued_inv maxConc es toolInit rfl

end XiaozhiMcp
